import Mathlib

/-!
Shallow embedding of the operator-invocation core of the gocluster CLI
(src/cmd/cli/main.go): the value converter (convertValue), the schema
validator (validateAndConvertParams), the read-path transport
(fetchFromAPI) and the trigger dispatcher (triggerOperator).

Go maps are modelled as association lists; Go map iteration order is
nondeterministic, so the list order stands for one arbitrary iteration
order, and the theorems that depend on order-robust behaviour are
stated so that they hold for every order. Go interface values that can
hold any decoded JSON value are modelled by the GoValue inductive. The
network is modelled as an explicit function argument from an address to
the response the node would give (a transport failure and a JSON decode
failure are both represented as an error string, since the Go code
treats both identically: record and continue).
-/

namespace Gocluster

/-- Model of a Go interface value as produced by JSON decoding or by the
value converter: a string, a Go int (from strconv.Atoi), a bool, a float
(IEEE rounding abstracted, the value kept as the exact rational the
accepted literal denotes), JSON null, a JSON array or a JSON object. -/
inductive GoValue where
  | str (s : String) : GoValue
  | int (n : Int) : GoValue
  | bool (b : Bool) : GoValue
  | float (q : ℚ) : GoValue
  | null : GoValue
  | arr (xs : List GoValue) : GoValue
  | obj (fields : List (String × GoValue)) : GoValue

/-- ParamSchema from the source: declared type, required flag, optional
default (Go Default is an interface value, nil when absent or JSON null,
modelled as Option GoValue), and description. -/
structure ParamSchema where
  type : String
  required : Bool
  default : Option GoValue
  description : String

/-- Error kinds of the Go strconv functions and of the unsupported-type
branch of convertValue. Go wraps the failing function name and input in
a NumError; the exact message text is not modelled, the kind and the
carried data are. -/
inductive ConvertError where
  | invalidInput (fn : String) (input : String) : ConvertError
  | outOfRange (fn : String) (input : String) : ConvertError
  | unsupportedType (t : String) : ConvertError

/-- Validation error kinds of validateAndConvertParams, carrying the
parameter name exactly as the Go fmt.Errorf messages do. -/
inductive ValidationError where
  | missingRequired (name : String) : ValidationError
  | unknownParameter (name : String) : ValidationError
  | parameterType (name : String) (e : ConvertError) : ValidationError

/-- Numeric value of a list of decimal digit characters. -/
def digitsVal (cs : List Char) : Nat :=
  cs.foldl (fun a c => a * 10 + (c.toNat - 48)) 0

/-- All characters are decimal digits. -/
def allDigits (cs : List Char) : Bool :=
  cs.all Char.isDigit

/-- Model of Go strconv.Atoi: optional sign, then one or more decimal
digits, rejected when the signed value does not fit a 64-bit int. -/
def goAtoi (s : String) : Except ConvertError Int :=
  let cs := s.data
  let signAndDigits : Int × List Char :=
    match cs with
    | '+' :: r => (1, r)
    | '-' :: r => (-1, r)
    | _ => (1, cs)
  let sign := signAndDigits.1
  let ds := signAndDigits.2
  if ds ≠ [] ∧ allDigits ds then
    let v : Int := sign * (digitsVal ds : Int)
    if -(2 ^ 63) ≤ v ∧ v < 2 ^ 63 then .ok v
    else .error (.outOfRange "Atoi" s)
  else .error (.invalidInput "Atoi" s)

/-- Model of Go strconv.ParseBool: accepts exactly the twelve literals
listed in its switch statement. -/
def goParseBool (s : String) : Except ConvertError Bool :=
  if s = "1" ∨ s = "t" ∨ s = "T" ∨ s = "true" ∨ s = "TRUE" ∨ s = "True" then
    .ok true
  else if s = "0" ∨ s = "f" ∨ s = "F" ∨ s = "false" ∨ s = "FALSE" ∨ s = "False" then
    .ok false
  else
    .error (.invalidInput "ParseBool" s)

/-- Splits a character list at the first occurrence of e or E, returning
the part before and, when the marker is present, the part after. -/
def splitAtExpChar : List Char → List Char × Option (List Char)
  | [] => ([], none)
  | c :: rest =>
    if c = 'e' ∨ c = 'E' then ([], some rest)
    else
      let p := splitAtExpChar rest
      (c :: p.1, p.2)

/-- Splits a character list at the first dot, returning the part before
and, when a dot is present, the part after. -/
def splitAtDot : List Char → List Char × Option (List Char)
  | [] => ([], none)
  | c :: rest =>
    if c = '.' then ([], some rest)
    else
      let p := splitAtDot rest
      (c :: p.1, p.2)

/-- Model of Go strconv.ParseFloat with bit size 64 on decimal input:
optional sign, a mantissa with digits on at least one side of an
optional dot, and an optional exponent part. The inf, nan and hex-float
forms and the IEEE rounding and range behaviour are not modelled; the
value is kept as the exact rational denoted. No claim depends on the
float branch. -/
def goParseFloat (s : String) : Except ConvertError ℚ :=
  let cs := s.data
  let signAndRest : ℚ × List Char :=
    match cs with
    | '+' :: r => (1, r)
    | '-' :: r => (-1, r)
    | _ => (1, cs)
  let sign := signAndRest.1
  let body := signAndRest.2
  let mantExp := splitAtExpChar body
  let ipFp := splitAtDot mantExp.1
  let ip := ipFp.1
  let fp := (ipFp.2).getD []
  if allDigits ip ∧ allDigits fp ∧ (ip ≠ [] ∨ fp ≠ []) then
    let mant : ℚ := sign * ((digitsVal ip : ℚ) + (digitsVal fp : ℚ) / (10 : ℚ) ^ fp.length)
    match mantExp.2 with
    | none => .ok mant
    | some ecs =>
      let esignAndDigits : Int × List Char :=
        match ecs with
        | '+' :: r => (1, r)
        | '-' :: r => (-1, r)
        | _ => (1, ecs)
      if esignAndDigits.2 ≠ [] ∧ allDigits esignAndDigits.2 then
        .ok (mant * (10 : ℚ) ^ (esignAndDigits.1 * (digitsVal esignAndDigits.2 : Int)))
      else .error (.invalidInput "ParseFloat" s)
  else .error (.invalidInput "ParseFloat" s)

/-- convertValue from the source: switch on the declared type, delegate
to the strconv parser for that type, and reject unknown type names. -/
def convertValue (value : String) (targetType : String) : Except ConvertError GoValue :=
  match targetType with
  | "string" => .ok (.str value)
  | "int" => (goAtoi value).map .int
  | "bool" => (goParseBool value).map .bool
  | "float" => (goParseFloat value).map .float
  | _ => .error (.unsupportedType targetType)

/-- First loop of validateAndConvertParams: walk the schema entries; for
a required entry absent from the supplied params, inject the default
value verbatim into the result when one is present, otherwise fail with
the missing-required error. Entries that are not required, or that are
supplied, contribute nothing in this pass. -/
def requiredPass (params : List (String × String)) :
    List (String × ParamSchema) → Except ValidationError (List (String × GoValue))
  | [] => .ok []
  | (name, ps) :: rest =>
    if ps.required then
      match params.lookup name with
      | some _ => requiredPass params rest
      | none =>
        match ps.default with
        | some d => (requiredPass params rest).map (fun r => (name, d) :: r)
        | none => .error (.missingRequired name)
    else requiredPass params rest

/-- Second loop of validateAndConvertParams: walk the supplied params;
fail on a name absent from the schema, otherwise convert the value at
the declared type, wrapping a conversion failure with the parameter
name. -/
def convertPass (schema : List (String × ParamSchema)) :
    List (String × String) → Except ValidationError (List (String × GoValue))
  | [] => .ok []
  | (name, value) :: rest =>
    match schema.lookup name with
    | none => .error (.unknownParameter name)
    | some ps =>
      match convertValue value ps.type with
      | .error e => .error (.parameterType name e)
      | .ok v => (convertPass schema rest).map (fun r => (name, v) :: r)

/-- validateAndConvertParams from the source: the required pass over all
schema entries runs first, then the conversion pass over the supplied
params; the result map holds the injected defaults together with the
converted supplied values (the two key sets are disjoint, since a
default is injected only for an absent name). -/
def validateAndConvertParams (params : List (String × String))
    (schema : List (String × ParamSchema)) :
    Except ValidationError (List (String × GoValue)) :=
  match requiredPass params schema with
  | .error e => .error e
  | .ok defaults =>
    match convertPass schema params with
    | .error e => .error e
    | .ok converted => .ok (defaults ++ converted)

/-- APIResponse wire entity from the source: success flag, data as an
arbitrary decoded JSON value (nil modelled as GoValue.null), and error
text. -/
structure APIResponse where
  success : Bool
  data : GoValue
  error : String

/-- Text Go fmt produces for the final error value: the wrapped error
string, or the nil rendering when no node was attempted. -/
def lastErrText : Option String → String
  | none => "<nil>"
  | some e => e

/-- Loop body of fetchFromAPI: try the remaining node addresses in
order, remembering the latest failure; a transport failure and a decode
failure both record the error and continue to the next node; the first
successful, decoded response is returned; when the addresses run out,
the single aggregated error wraps the last individual failure. -/
def fetchLoop (endpoint : String) (net : String → String → Except String APIResponse) :
    List String → Option String → Except String APIResponse
  | [], lastErr => .error ("failed to fetch from any node: " ++ lastErrText lastErr)
  | addr :: rest, _ =>
    match net addr endpoint with
    | .error e => fetchLoop endpoint net rest (some e)
    | .ok resp => .ok resp

/-- fetchFromAPI from the source: iterate the configured node addresses
of the cluster (one arbitrary iteration order of the Go nodes map,
modelled as the list order), with no error recorded initially. -/
def fetchFromAPI (nodes : List String) (endpoint : String)
    (net : String → String → Except String APIResponse) : Except String APIResponse :=
  fetchLoop endpoint net nodes none

/-- OperationSchema from the source: description and the two
independently validated schema namespaces. -/
structure OperationSchema where
  description : String
  parameters : List (String × ParamSchema)
  config : List (String × ParamSchema)

/-- OperatorSchema from the source. -/
structure OperatorSchema where
  name : String
  version : String
  description : String
  operations : List (String × OperationSchema)

/-- OperatorPayload wire entity from the source. -/
structure OperatorPayload where
  operation : String
  config : List (String × GoValue)
  params : List (String × GoValue)
  parallel : Bool
  targetNodes : List String

/-- Outcome of the trigger flow, one constructor per exit path of
triggerOperator after the schema has been fetched: unknown operation
(carrying the printed list of available operation names), a validation
failure in either namespace, a transport failure of the one POST, a
server-rejected response, or success (carrying the job id found in the
response data, when there is one). -/
inductive TriggerResult where
  | unknownOperation (available : List String) : TriggerResult
  | paramValidationError (e : ValidationError) : TriggerResult
  | configValidationError (e : ValidationError) : TriggerResult
  | requestError (msg : String) : TriggerResult
  | operatorRejected (errMsg : String) : TriggerResult
  | triggered (jobId : Option GoValue) : TriggerResult

/-- Job id extraction of the success branch: the response data must be a
JSON object and the job_id field is looked up in it. -/
def jobIdOf : GoValue → Option GoValue
  | .obj fields => fields.lookup "job_id"
  | _ => none

/-- triggerOperator from the source, starting after the operator schema
has been fetched (the fetch itself is the read path, fetchFromAPI). The
returned pair is the outcome together with the trace of POST requests
issued, each as the target node address and the serialized payload; the
Go code builds the URL from the single chosen address and the operator
name and issues client.Do exactly once, so the trace records that one
request whether or not it succeeds. The chosen address is the first
entry the range loop over the cluster nodes map yields, modelled as the
head of the address list, or the empty string when there are no nodes. -/
def triggerOperator (nodes : List String) (schema : OperatorSchema)
    (operationName : String) (params config : List (String × String))
    (parallel : Bool) (targetNodes : List String)
    (net : String → OperatorPayload → Except String APIResponse) :
    TriggerResult × List (String × OperatorPayload) :=
  match schema.operations.lookup operationName with
  | none => (.unknownOperation (schema.operations.map Prod.fst), [])
  | some opSchema =>
    match validateAndConvertParams params opSchema.parameters with
    | .error e => (.paramValidationError e, [])
    | .ok validatedParams =>
      match validateAndConvertParams config opSchema.config with
      | .error e => (.configValidationError e, [])
      | .ok validatedConfig =>
        let payload : OperatorPayload :=
          { operation := operationName
            config := validatedConfig
            params := validatedParams
            parallel := parallel
            targetNodes := targetNodes }
        let nodeAddr := nodes.headD ""
        match net nodeAddr payload with
        | .error e => (.requestError e, [(nodeAddr, payload)])
        | .ok apiResp =>
          if apiResp.success then
            (.triggered (jobIdOf apiResp.data), [(nodeAddr, payload)])
          else
            (.operatorRejected apiResp.error, [(nodeAddr, payload)])

/-! ## Helper lemmas on association-list lookup -/

/-- A successful lookup yields a member of the list. -/
lemma lookup_mem {α β : Type} [BEq α] [LawfulBEq α] {l : List (α × β)} {k : α} {v : β}
    (h : l.lookup k = some v) : (k, v) ∈ l := by
  obtain ⟨l₁, l₂, rfl, -⟩ := List.lookup_eq_some_iff.mp h
  simp

/-- Lookup misses when the key is not among the keys of the list. -/
lemma lookup_none_of_not_mem_keys {α β : Type} [BEq α] [LawfulBEq α]
    {l : List (α × β)} {k : α} (h : k ∉ l.map Prod.fst) : l.lookup k = none := by
  rw [List.lookup_eq_none_iff]
  intro p hp
  simp only [bne_iff_ne, ne_eq]
  rintro rfl
  exact h (List.mem_map_of_mem Prod.fst hp)

/-! ## Helper lemmas on the required pass -/

/-- Every key the required pass puts into the result is a schema key. -/
lemma requiredPass_ok_keys {params : List (String × String)}
    {schema : List (String × ParamSchema)} {defs : List (String × GoValue)}
    (h : requiredPass params schema = .ok defs) :
    ∀ k v, (k, v) ∈ defs → k ∈ schema.map Prod.fst := by
  induction schema generalizing defs with
  | nil =>
    simp [requiredPass] at h
    subst h
    simp
  | cons hd tl ih =>
    obtain ⟨n, ps⟩ := hd
    intro k v hm
    rw [requiredPass] at h
    by_cases hreq : ps.required = true
    · rw [if_pos hreq] at h
      cases hp : params.lookup n with
      | some w =>
        simp only [hp] at h
        have := ih h k v hm
        simp [this]
      | none =>
        simp only [hp] at h
        cases hd : ps.default with
        | some d =>
          simp only [hd] at h
          cases hrec : requiredPass params tl with
          | error e => rw [hrec] at h; simp [Except.map] at h
          | ok defs' =>
            rw [hrec] at h
            simp only [Except.map, Except.ok.injEq] at h
            subst h
            rcases List.mem_cons.mp hm with heq | hmem
            · cases heq
              simp
            · have := ih hrec k v hmem
              simp [this]
        | none =>
          simp only [hd] at h
          exact absurd h (by simp)
    · rw [if_neg hreq] at h
      have := ih h k v hm
      simp [this]

/-- Characterization of the defaults the required pass injects: the
result of a successful required pass holds exactly, for each key, the
default of the schema entry at that key when that entry is required,
absent from the supplied params, and carries a default (schema keys
assumed distinct, as they are for a Go map). -/
lemma requiredPass_ok_lookup {params : List (String × String)}
    {schema : List (String × ParamSchema)} {defs : List (String × GoValue)}
    (hnd : (schema.map Prod.fst).Nodup)
    (h : requiredPass params schema = .ok defs) :
    ∀ k v, (defs.lookup k = some v ↔
      ∃ ps, schema.lookup k = some ps ∧ ps.required = true ∧
        params.lookup k = none ∧ ps.default = some v) := by
  induction schema generalizing defs with
  | nil =>
    simp [requiredPass] at h
    subst h
    simp
  | cons hd tl ih =>
    obtain ⟨n, ps⟩ := hd
    intro k v
    simp only [List.map_cons, List.nodup_cons] at hnd
    obtain ⟨hn0, hndtl⟩ := hnd
    rw [requiredPass] at h
    by_cases hk : k = n
    · subst hk
      rw [List.lookup_cons_self]
      by_cases hreq : ps.required = true
      · rw [if_pos hreq] at h
        cases hp : params.lookup k with
        | some w =>
          simp only [hp] at h
          have hnone : defs.lookup k = none := by
            apply lookup_none_of_not_mem_keys
            intro hmem
            rcases List.mem_map.mp hmem with ⟨⟨k', v'⟩, hin, hfst⟩
            cases hfst
            exact hn0 (requiredPass_ok_keys h _ _ hin)
          simp [hnone, hp]
        | none =>
          simp only [hp] at h
          cases hdef : ps.default with
          | some d =>
            simp only [hdef] at h
            cases hrec : requiredPass params tl with
            | error e => rw [hrec] at h; simp [Except.map] at h
            | ok defs' =>
              rw [hrec] at h
              simp only [Except.map, Except.ok.injEq] at h
              subst h
              simp only [List.lookup_cons_self, Option.some.injEq, hreq, hp, hdef]
              constructor
              · rintro rfl
                exact ⟨ps, rfl, hreq, trivial, hdef⟩
              · rintro ⟨ps1, rfl, -, -, hd2⟩
                rw [hdef] at hd2
                exact Option.some_inj.mp hd2
          | none =>
            simp only [hdef] at h
            exact absurd h (by simp)
      · rw [if_neg hreq] at h
        have hnone : defs.lookup k = none := by
          apply lookup_none_of_not_mem_keys
          intro hmem
          rcases List.mem_map.mp hmem with ⟨⟨k', v'⟩, hin, hfst⟩
          cases hfst
          exact hn0 (requiredPass_ok_keys h _ _ hin)
        simp only [Bool.not_eq_true] at hreq
        simp [hnone, hreq]
    · have hkn : (k == n) = false := by simp [hk]
      rw [List.lookup_cons, hkn]
      simp only [cond_false]
      by_cases hreq : ps.required = true
      · rw [if_pos hreq] at h
        cases hp : params.lookup n with
        | some w =>
          simp only [hp] at h
          exact ih hndtl h k v
        | none =>
          simp only [hp] at h
          cases hdef : ps.default with
          | some d =>
            simp only [hdef] at h
            cases hrec : requiredPass params tl with
            | error e => rw [hrec] at h; simp [Except.map] at h
            | ok defs' =>
              rw [hrec] at h
              simp only [Except.map, Except.ok.injEq] at h
              subst h
              rw [List.lookup_cons, hkn]
              simp only [cond_false]
              exact ih hndtl hrec k v
          | none =>
            simp only [hdef] at h
            exact absurd h (by simp)
      · rw [if_neg hreq] at h
        exact ih hndtl h k v

/-- When some required schema entry with no default is absent from the
supplied params, the required pass fails, and its error is the
missing-required error for some such entry; unknown supplied keys are
never consulted in this pass. -/
lemma requiredPass_error_of_missing {params : List (String × String)}
    {schema : List (String × ParamSchema)} {name : String} {ps : ParamSchema}
    (hin : (name, ps) ∈ schema) (hreq : ps.required = true)
    (hdef : ps.default = none) (habs : params.lookup name = none) :
    ∃ name2 ps2, (name2, ps2) ∈ schema ∧ ps2.required = true ∧
      ps2.default = none ∧ params.lookup name2 = none ∧
      requiredPass params schema = .error (.missingRequired name2) := by
  induction schema with
  | nil => simp at hin
  | cons hd tl ih =>
    obtain ⟨n, p⟩ := hd
    rw [requiredPass]
    by_cases hr : p.required = true
    · rw [if_pos hr]
      cases hp : params.lookup n with
      | some w =>
        simp only []
        rcases List.mem_cons.mp hin with heq | hmem
        · obtain ⟨h1, h2⟩ := Prod.mk.injEq .. ▸ heq
          subst h1
          subst h2
          rw [hp] at habs
          simp at habs
        · obtain ⟨n2, p2, hm2, h2, h3, h4, h5⟩ := ih hmem
          exact ⟨n2, p2, List.mem_cons_of_mem _ hm2, h2, h3, h4, h5⟩
      | none =>
        cases hd : p.default with
        | some d =>
          simp only []
          rcases List.mem_cons.mp hin with heq | hmem
          · obtain ⟨h1, h2⟩ := Prod.mk.injEq .. ▸ heq
            subst h1
            subst h2
            rw [hd] at hdef
            simp at hdef
          · obtain ⟨n2, p2, hm2, h2, h3, h4, h5⟩ := ih hmem
            refine ⟨n2, p2, List.mem_cons_of_mem _ hm2, h2, h3, h4, ?_⟩
            rw [h5]
            rfl
        | none =>
          exact ⟨n, p, List.mem_cons_self .., hr, hd, hp, rfl⟩
    · rw [if_neg hr]
      rcases List.mem_cons.mp hin with heq | hmem
      · obtain ⟨h1, h2⟩ := Prod.mk.injEq .. ▸ heq
        subst h1
        subst h2
        exact absurd hreq hr
      · obtain ⟨n2, p2, hm2, h2, h3, h4, h5⟩ := ih hmem
        exact ⟨n2, p2, List.mem_cons_of_mem _ hm2, h2, h3, h4, h5⟩

/-- When no required schema entry with no default is absent from the
supplied params, the required pass succeeds. -/
lemma requiredPass_ok_of_no_missing {params : List (String × String)}
    {schema : List (String × ParamSchema)}
    (h : ∀ n ps, (n, ps) ∈ schema → ps.required = true → ps.default = none →
      params.lookup n ≠ none) :
    ∃ defs, requiredPass params schema = .ok defs := by
  induction schema with
  | nil => exact ⟨[], rfl⟩
  | cons hd tl ih =>
    obtain ⟨n, p⟩ := hd
    have htl : ∀ n2 ps2, (n2, ps2) ∈ tl → ps2.required = true → ps2.default = none →
        params.lookup n2 ≠ none := fun n2 ps2 hm => h n2 ps2 (List.mem_cons_of_mem _ hm)
    obtain ⟨defs, hdefs⟩ := ih htl
    rw [requiredPass]
    by_cases hr : p.required = true
    · rw [if_pos hr]
      cases hp : params.lookup n with
      | some w => exact ⟨defs, hdefs⟩
      | none =>
        cases hd : p.default with
        | some d =>
          refine ⟨(n, d) :: defs, ?_⟩
          rw [hdefs]
          rfl
        | none => exact absurd hp (h n p (List.mem_cons_self ..) hr hd)
    · rw [if_neg hr]
      exact ⟨defs, hdefs⟩

/-! ## Helper lemmas on the conversion pass -/

/-- Characterization of a successful conversion pass: the result holds
exactly the supplied entries, each converted at the declared type of its
schema entry. -/
lemma convertPass_ok_lookup {schema : List (String × ParamSchema)} :
    ∀ {params : List (String × String)} {conv : List (String × GoValue)},
      convertPass schema params = .ok conv →
      ∀ k v, (conv.lookup k = some v ↔
        ∃ raw ps, params.lookup k = some raw ∧ schema.lookup k = some ps ∧
          convertValue raw ps.type = .ok v) := by
  intro params
  induction params with
  | nil =>
    intro conv h k v
    simp [convertPass] at h
    subst h
    simp
  | cons hd tl ih =>
    intro conv h k v
    obtain ⟨n, w⟩ := hd
    rw [convertPass] at h
    cases hs : schema.lookup n with
    | none =>
      rw [hs] at h
      simp at h
    | some ps0 =>
      rw [hs] at h
      simp only [] at h
      cases hc : convertValue w ps0.type with
      | error e =>
        rw [hc] at h
        simp at h
      | ok u =>
        rw [hc] at h
        cases hrec : convertPass schema tl with
        | error e => rw [hrec] at h; simp [Except.map] at h
        | ok conv' =>
          rw [hrec] at h
          simp only [Except.map, Except.ok.injEq] at h
          subst h
          by_cases hk : k = n
          · subst hk
            simp only [List.lookup_cons_self]
            constructor
            · rintro heq
              exact ⟨w, ps0, rfl, hs, by rw [hc, Option.some_inj.mp heq]⟩
            · rintro ⟨raw, ps1, hraw, hps1, hcv⟩
              cases Option.some_inj.mp hraw
              rw [hs] at hps1
              cases Option.some_inj.mp hps1
              rw [hc] at hcv
              simp only [Except.ok.injEq] at hcv
              rw [hcv]
          · have hkn : (k == n) = false := by simp [hk]
            rw [List.lookup_cons, hkn]
            simp only [cond_false]
            rw [ih hrec k v]
            constructor
            · rintro ⟨raw, ps1, hraw, hps1, hcv⟩
              refine ⟨raw, ps1, ?_, hps1, hcv⟩
              rw [List.lookup_cons, hkn]
              simpa using hraw
            · rintro ⟨raw, ps1, hraw, hps1, hcv⟩
              rw [List.lookup_cons, hkn] at hraw
              simp only [cond_false] at hraw
              exact ⟨raw, ps1, hraw, hps1, hcv⟩

/-- A supplied key absent from the schema makes the conversion pass
fail. -/
lemma convertPass_error_of_unknown {schema : List (String × ParamSchema)} :
    ∀ {params : List (String × String)} {k : String} {v : String},
      (k, v) ∈ params → schema.lookup k = none →
      ∃ e, convertPass schema params = .error e := by
  intro params
  induction params with
  | nil =>
    intro k v hm
    simp at hm
  | cons hd tl ih =>
    intro k v hm hk
    obtain ⟨n, w⟩ := hd
    rw [convertPass]
    cases hs : schema.lookup n with
    | none => exact ⟨.unknownParameter n, rfl⟩
    | some ps0 =>
      rcases List.mem_cons.mp hm with heq | hmem
      · obtain ⟨h1, h2⟩ := Prod.mk.injEq .. ▸ heq
        subst h1
        rw [hs] at hk
        simp at hk
      · cases hc : convertValue w ps0.type with
        | error e =>
          refine ⟨.parameterType n e, ?_⟩
          simp only [hc]
        | ok u =>
          obtain ⟨e, he⟩ := ih hmem hk
          refine ⟨e, ?_⟩
          simp only [hc, he, Except.map]

/-- When every supplied entry before an unknown key is known to the
schema and converts, the conversion pass fails with the unknown-
parameter error for exactly that key. -/
lemma convertPass_unknown_at {schema : List (String × ParamSchema)}
    {k : String} {v : String} (hk : schema.lookup k = none) :
    ∀ (pre : List (String × String)) (post : List (String × String)),
      (∀ k2 v2, (k2, v2) ∈ pre → ∃ ps w, schema.lookup k2 = some ps ∧
        convertValue v2 ps.type = .ok w) →
      convertPass schema (pre ++ (k, v) :: post) = .error (.unknownParameter k) := by
  intro pre
  induction pre with
  | nil =>
    intro post _
    rw [List.nil_append, convertPass, hk]
  | cons hd tl ih =>
    intro post hpre
    obtain ⟨n, w⟩ := hd
    obtain ⟨ps0, u, hs, hc⟩ := hpre n w (List.mem_cons_self ..)
    rw [List.cons_append, convertPass, hs]
    simp only []
    rw [hc]
    have htl := ih post (fun k2 v2 hm => hpre k2 v2 (List.mem_cons_of_mem _ hm))
    rw [htl]
    rfl

/-! ## Helper lemmas on the combined validator -/

/-- A successful validation splits into a successful required pass and a
successful conversion pass, the result being their concatenation. -/
lemma validate_ok_parts {params : List (String × String)}
    {schema : List (String × ParamSchema)} {res : List (String × GoValue)}
    (h : validateAndConvertParams params schema = .ok res) :
    ∃ defs conv, requiredPass params schema = .ok defs ∧
      convertPass schema params = .ok conv ∧ res = defs ++ conv := by
  rw [validateAndConvertParams] at h
  cases hrp : requiredPass params schema with
  | error e => rw [hrp] at h; simp at h
  | ok defs =>
    rw [hrp] at h
    cases hcp : convertPass schema params with
    | error e => rw [hcp] at h; simp at h
    | ok conv =>
      rw [hcp] at h
      simp only [Except.ok.injEq] at h
      exact ⟨defs, conv, rfl, rfl, h.symm⟩

/-- A failing required pass is the validation result. -/
lemma validate_error_of_requiredPass {params : List (String × String)}
    {schema : List (String × ParamSchema)} {e : ValidationError}
    (h : requiredPass params schema = .error e) :
    validateAndConvertParams params schema = .error e := by
  simp only [validateAndConvertParams, h]

/-- A failing conversion pass after a successful required pass is the
validation result. -/
lemma validate_error_of_convertPass {params : List (String × String)}
    {schema : List (String × ParamSchema)} {defs : List (String × GoValue)}
    {e : ValidationError}
    (h1 : requiredPass params schema = .ok defs)
    (h2 : convertPass schema params = .error e) :
    validateAndConvertParams params schema = .error e := by
  simp only [validateAndConvertParams, h1, h2]

/-- Shared core of the default-injection claims: a required schema entry
with a default, absent from the supplied params, appears in a successful
result with exactly that default value. -/
lemma validate_lookup_default {params : List (String × String)}
    {schema : List (String × ParamSchema)} {res : List (String × GoValue)}
    {name : String} {ps : ParamSchema} {d : GoValue}
    (hok : validateAndConvertParams params schema = .ok res)
    (hnd : (schema.map Prod.fst).Nodup)
    (hs : schema.lookup name = some ps) (hreq : ps.required = true)
    (hd : ps.default = some d) (habs : params.lookup name = none) :
    res.lookup name = some d := by
  obtain ⟨defs, conv, hrp, hcp, rfl⟩ := validate_ok_parts hok
  have hdefs : defs.lookup name = some d :=
    (requiredPass_ok_lookup hnd hrp name d).mpr ⟨ps, hs, hreq, habs, hd⟩
  rw [List.lookup_append, hdefs]
  rfl

/-! ## Claim theorems -/

/-- C1 (corrected): in the code, a default is injected for an omitted
argument only when the schema entry is marked required; the general
statement holds for every required entry with a default, and the round
trip of the claim holds once required is true: validating the schema
mapping name to (int, required, default 70) against the empty supplied
mapping returns name mapped to 70, and against name supplied as "55"
returns name mapped to the converted 55. A non-required entry with a
default contributes nothing when omitted: the result is empty. -/
theorem c1_default_injection_requires_required :
    (∀ (params : List (String × String)) (schema : List (String × ParamSchema))
      (res : List (String × GoValue)) (name : String) (ps : ParamSchema) (d : GoValue),
      validateAndConvertParams params schema = .ok res →
      (schema.map Prod.fst).Nodup →
      schema.lookup name = some ps → ps.required = true → ps.default = some d →
      params.lookup name = none →
      res.lookup name = some d)
    ∧ validateAndConvertParams []
        [("name", ⟨"int", true, some (.int 70), ""⟩)] = .ok [("name", .int 70)]
    ∧ validateAndConvertParams [("name", "55")]
        [("name", ⟨"int", true, some (.int 70), ""⟩)] = .ok [("name", .int 55)]
    ∧ validateAndConvertParams []
        [("name", ⟨"int", false, some (.int 70), ""⟩)] = .ok [] := by
  refine ⟨?_, rfl, rfl, rfl⟩
  intro params schema res name ps d hok hnd hs hreq hd habs
  exact validate_lookup_default hok hnd hs hreq hd habs

/-- C1 counterexample: the claim says validating the schema mapping name
to (int, required false, default 70) against the empty supplied mapping
returns name mapped to 70; the code returns the empty mapping, because
the default pass only considers required entries. -/
theorem c1_counterexample :
    validateAndConvertParams [] [("name", ⟨"int", false, some (.int 70), ""⟩)] = .ok []
    ∧ (Except.ok ([] : List (String × GoValue)) :
        Except ValidationError (List (String × GoValue))) ≠ .ok [("name", .int 70)] := by
  refine ⟨rfl, ?_⟩
  intro h
  simp at h

/-- C10 (confirmed): the default value of a required schema entry absent
from the supplied mapping is placed into the validated result verbatim,
never run through the value converter and never checked against the
declared type, so an ill-typed schema default (here a string default on
an int-typed entry) propagates unchanged into a successful result. -/
theorem c10_default_propagates_verbatim :
    (∀ (params : List (String × String)) (schema : List (String × ParamSchema))
      (res : List (String × GoValue)) (name : String) (ps : ParamSchema) (d : GoValue),
      validateAndConvertParams params schema = .ok res →
      (schema.map Prod.fst).Nodup →
      schema.lookup name = some ps → ps.required = true → ps.default = some d →
      params.lookup name = none →
      res.lookup name = some d)
    ∧ validateAndConvertParams []
        [("p", ⟨"int", true, some (.str "oops"), ""⟩)] = .ok [("p", .str "oops")] := by
  refine ⟨?_, rfl⟩
  intro params schema res name ps d hok hnd hs hreq hd habs
  exact validate_lookup_default hok hnd hs hreq hd habs

/-- C2 (confirmed): when some required schema entry with no default is
absent from the supplied mapping, validation fails with the
missing-required error naming such an entry; the required pass decides
this from the schema entries alone, before any supplied key is
examined, so an unknown supplied key never preempts this error. -/
theorem c2_missing_required_reported_first
    (params : List (String × String)) (schema : List (String × ParamSchema))
    (name : String) (ps : ParamSchema)
    (hin : (name, ps) ∈ schema) (hreq : ps.required = true)
    (hdef : ps.default = none) (habs : params.lookup name = none) :
    ∃ name2 ps2, (name2, ps2) ∈ schema ∧ ps2.required = true ∧
      ps2.default = none ∧ params.lookup name2 = none ∧
      validateAndConvertParams params schema = .error (.missingRequired name2) := by
  obtain ⟨n2, p2, hm, h1, h2, h3, h4⟩ :=
    requiredPass_error_of_missing hin hreq hdef habs
  exact ⟨n2, p2, hm, h1, h2, h3, validate_error_of_requiredPass h4⟩

/-- C2 witness: a schema requiring name with no default, and a supplied
mapping holding only an unknown key, yields the missing-required error
for name, not the unknown-parameter error. -/
theorem c2_witness :
    ∃ name2 ps2,
      (name2, ps2) ∈ [("name", (⟨"string", true, none, ""⟩ : ParamSchema))] ∧
      ps2.required = true ∧ ps2.default = none ∧
      List.lookup name2 [("typo", "x")] = none ∧
      validateAndConvertParams [("typo", "x")]
        [("name", ⟨"string", true, none, ""⟩)] = .error (.missingRequired name2) :=
  c2_missing_required_reported_first [("typo", "x")]
    [("name", ⟨"string", true, none, ""⟩)] "name" ⟨"string", true, none, ""⟩
    (List.mem_cons_self ..) rfl rfl rfl

/-- C3 (confirmed): a supplied key absent from the schema always makes
validation fail, so it is never silently dropped; and when no required
entry is missing and every supplied entry before it converts, the error
is the unknown-parameter error naming that key. -/
theorem c3_unknown_key_rejected
    (params : List (String × String)) (schema : List (String × ParamSchema))
    (pre post : List (String × String)) (k v : String)
    (hsplit : params = pre ++ (k, v) :: post)
    (hk : schema.lookup k = none) :
    (∃ e, validateAndConvertParams params schema = .error e) ∧
    ((∀ n ps, (n, ps) ∈ schema → ps.required = true → ps.default = none →
        params.lookup n ≠ none) →
      (∀ k2 v2, (k2, v2) ∈ pre → ∃ ps w, schema.lookup k2 = some ps ∧
        convertValue v2 ps.type = .ok w) →
      validateAndConvertParams params schema = .error (.unknownParameter k)) := by
  have hmem : (k, v) ∈ params := by
    rw [hsplit]
    exact List.mem_append_right _ (List.mem_cons_self ..)
  constructor
  · cases hrp : requiredPass params schema with
    | error e => exact ⟨e, validate_error_of_requiredPass hrp⟩
    | ok defs =>
      obtain ⟨e, he⟩ := convertPass_error_of_unknown hmem hk
      exact ⟨e, validate_error_of_convertPass hrp he⟩
  · intro hnomiss hpre
    obtain ⟨defs, hdefs⟩ := requiredPass_ok_of_no_missing hnomiss
    have hcp : convertPass schema params = .error (.unknownParameter k) := by
      rw [hsplit]
      exact convertPass_unknown_at hk pre post hpre
    exact validate_error_of_convertPass hdefs hcp

/-- C3 witness: a known converting entry followed by the unknown key
typo is rejected with the unknown-parameter error naming typo. -/
theorem c3_witness :
    (∃ e, validateAndConvertParams [("good", "1"), ("typo", "x")]
      [("good", (⟨"int", false, none, ""⟩ : ParamSchema))] = .error e) ∧
    ((∀ n ps, (n, ps) ∈ [("good", (⟨"int", false, none, ""⟩ : ParamSchema))] →
        ps.required = true → ps.default = none →
        List.lookup n [("good", "1"), ("typo", "x")] ≠ none) →
      (∀ k2 v2, (k2, v2) ∈ [("good", "1")] →
        ∃ ps w, List.lookup k2 [("good", (⟨"int", false, none, ""⟩ : ParamSchema))] = some ps ∧
          convertValue v2 ps.type = .ok w) →
      validateAndConvertParams [("good", "1"), ("typo", "x")]
        [("good", (⟨"int", false, none, ""⟩ : ParamSchema))]
        = .error (.unknownParameter "typo")) :=
  c3_unknown_key_rejected [("good", "1"), ("typo", "x")]
    [("good", ⟨"int", false, none, ""⟩)] [("good", "1")] [] "typo" "x" rfl rfl

/-- C9 (confirmed): a successful validation result holds exactly the
converted supplied entries together with the defaults of the required
schema entries that carry a default and are absent from the supplied
mapping — no other key is ever added, and a supplied key always maps to
its converted supplied value, never to a schema default. -/
theorem c9_result_domain
    (params : List (String × String)) (schema : List (String × ParamSchema))
    (res : List (String × GoValue)) (k : String) (v : GoValue)
    (hok : validateAndConvertParams params schema = .ok res)
    (hnd : (schema.map Prod.fst).Nodup) :
    res.lookup k = some v ↔
      ((∃ raw ps, params.lookup k = some raw ∧ schema.lookup k = some ps ∧
          convertValue raw ps.type = .ok v)
        ∨ (params.lookup k = none ∧ ∃ ps, schema.lookup k = some ps ∧
            ps.required = true ∧ ps.default = some v)) := by
  obtain ⟨defs, conv, hrp, hcp, rfl⟩ := validate_ok_parts hok
  rw [List.lookup_append]
  cases hp : params.lookup k with
  | none =>
    have hconv : conv.lookup k = none := by
      cases hcl : conv.lookup k with
      | none => rfl
      | some u =>
        obtain ⟨raw, ps, hraw, -, -⟩ := (convertPass_ok_lookup hcp k u).mp hcl
        rw [hp] at hraw
        exact absurd hraw (by simp)
    rw [hconv, Option.or_none, requiredPass_ok_lookup hnd hrp k v]
    constructor
    · rintro ⟨ps, h1, h2, h3, h4⟩
      exact Or.inr ⟨rfl, ps, h1, h2, h4⟩
    · rintro (⟨raw, ps, hraw, -, -⟩ | ⟨-, ps, h1, h2, h3⟩)
      · exact absurd hraw (by simp)
      · exact ⟨ps, h1, h2, hp, h3⟩
  | some raw0 =>
    have hdefs : defs.lookup k = none := by
      cases hdl : defs.lookup k with
      | none => rfl
      | some u =>
        obtain ⟨ps, -, -, habs, -⟩ := (requiredPass_ok_lookup hnd hrp k u).mp hdl
        rw [hp] at habs
        exact absurd habs (by simp)
    rw [hdefs, Option.none_or, convertPass_ok_lookup hcp k v]
    constructor
    · rintro ⟨raw, ps, h1, h2, h3⟩
      rw [hp] at h1
      exact Or.inl ⟨raw, ps, h1, h2, h3⟩
    · rintro (⟨raw, ps, h1, h2, h3⟩ | ⟨hnone, -⟩)
      · exact ⟨raw, ps, hp.trans h1, h2, h3⟩
      · exact absurd hnone (by simp)

/-- C9 witness: with one required defaulted entry a and one supplied
entry b, the result holds a mapped to its default and b mapped to its
converted value, as the characterization states at the key a. -/
theorem c9_witness :
    List.lookup "a" [("a", GoValue.int 7), ("b", GoValue.str "x")] = some (GoValue.int 7) ↔
      ((∃ raw ps, List.lookup "a" [("b", "x")] = some raw ∧
          List.lookup "a" [("a", (⟨"int", true, some (.int 7), ""⟩ : ParamSchema)),
            ("b", ⟨"string", false, none, ""⟩)] = some ps ∧
          convertValue raw ps.type = .ok (GoValue.int 7))
        ∨ (List.lookup "a" [("b", "x")] = none ∧
          ∃ ps, List.lookup "a" [("a", (⟨"int", true, some (.int 7), ""⟩ : ParamSchema)),
            ("b", ⟨"string", false, none, ""⟩)] = some ps ∧
            ps.required = true ∧ ps.default = some (GoValue.int 7))) :=
  c9_result_domain [("b", "x")]
    [("a", ⟨"int", true, some (.int 7), ""⟩), ("b", ⟨"string", false, none, ""⟩)]
    [("a", GoValue.int 7), ("b", GoValue.str "x")] "a" (GoValue.int 7) rfl (by simp)

/-! ## Helper lemmas on the read-path transport -/

/-- The read loop returns the first successful response: failures of the
earlier addresses only update the remembered error. -/
lemma fetchLoop_first_ok {endpoint : String}
    {net : String → String → Except String APIResponse} {s : String}
    {rest : List String} {resp : APIResponse} (hs : net s endpoint = .ok resp) :
    ∀ (pre : List String) (acc : Option String),
      (∀ a ∈ pre, ∃ e, net a endpoint = .error e) →
      fetchLoop endpoint net (pre ++ s :: rest) acc = .ok resp := by
  intro pre
  induction pre with
  | nil =>
    intro acc _
    rw [List.nil_append]
    simp only [fetchLoop, hs]
  | cons a tl ih =>
    intro acc hfail
    obtain ⟨e, he⟩ := hfail a (List.mem_cons_self ..)
    rw [List.cons_append]
    simp only [fetchLoop, he]
    exact ih (some e) (fun a2 hm => hfail a2 (List.mem_cons_of_mem _ hm))

/-- When every address fails, the read loop returns the aggregated error
wrapping the failure of the last address. -/
lemma fetchLoop_all_fail {endpoint : String}
    {net : String → String → Except String APIResponse} {f : String → String} :
    ∀ (front : List String) (lastN : String) (acc : Option String),
      (∀ a ∈ front ++ [lastN], net a endpoint = .error (f a)) →
      fetchLoop endpoint net (front ++ [lastN]) acc =
        .error ("failed to fetch from any node: " ++ f lastN) := by
  intro front
  induction front with
  | nil =>
    intro lastN acc hfail
    have h := hfail lastN (by simp)
    rw [List.nil_append]
    simp only [fetchLoop, h]
    rfl
  | cons a tl ih =>
    intro lastN acc hfail
    have h := hfail a (by simp)
    rw [List.cons_append]
    simp only [fetchLoop, h]
    exact ih lastN (some (f a)) (fun x hm => hfail x (by simp [hm]))

/-- C4 (confirmed): the read path iterates the configured node addresses
and returns the first successful response, never surfacing the earlier
failures; when every node fails it returns the single aggregated error
wrapping the last individual failure; concretely, with three configured
nodes where the first two are unreachable and the third answers, the
response of the third node is returned. -/
theorem c4_read_path_fallback :
    (∀ (endpoint : String) (net : String → String → Except String APIResponse)
      (pre : List String) (s : String) (rest : List String) (resp : APIResponse),
      (∀ a ∈ pre, ∃ e, net a endpoint = .error e) →
      net s endpoint = .ok resp →
      fetchFromAPI (pre ++ s :: rest) endpoint net = .ok resp)
    ∧ (∀ (endpoint : String) (net : String → String → Except String APIResponse)
      (front : List String) (lastN : String) (f : String → String),
      (∀ a ∈ front ++ [lastN], net a endpoint = .error (f a)) →
      fetchFromAPI (front ++ [lastN]) endpoint net =
        .error ("failed to fetch from any node: " ++ f lastN))
    ∧ fetchFromAPI ["n1", "n2", "n3"] "health"
        (fun a _ => if a = "n3" then .ok ⟨true, .null, ""⟩
          else .error ("dial tcp " ++ a))
      = .ok ⟨true, .null, ""⟩ := by
  refine ⟨?_, ?_, rfl⟩
  · intro endpoint net pre s rest resp hfail hs
    exact fetchLoop_first_ok hs pre none hfail
  · intro endpoint net front lastN f hfail
    exact fetchLoop_all_fail front lastN none hfail

/-- Operator schema of the end-to-end scenario of the spec: operator
aerospike with one operation add_namespace, requiring name (string, no
default) with an optional high_water_disk_pct (int, default 70). -/
def aerospikeSchema : OperatorSchema :=
  { name := "aerospike"
    version := "1.0.0"
    description := ""
    operations :=
      [("add_namespace",
        { description := ""
          parameters :=
            [("name", ⟨"string", true, none, ""⟩),
             ("high_water_disk_pct", ⟨"int", false, some (.int 70), ""⟩)]
          config := [] })] }

/-- C5 (confirmed): the trigger flow validates the supplied params
against the parameters schema of the operation and the supplied config
against its config schema, and a validation failure in either namespace
ends the invocation with the corresponding error and an empty POST
trace: no POST to the trigger endpoint is ever issued. -/
theorem c5_validation_failure_aborts_before_post
    (nodes : List String) (schema : OperatorSchema) (operationName : String)
    (params config : List (String × String)) (parallel : Bool)
    (targetNodes : List String)
    (net : String → OperatorPayload → Except String APIResponse)
    (opSchema : OperationSchema)
    (hop : schema.operations.lookup operationName = some opSchema) :
    (∀ e, validateAndConvertParams params opSchema.parameters = .error e →
      triggerOperator nodes schema operationName params config parallel targetNodes net
        = (.paramValidationError e, []))
    ∧ (∀ vp e, validateAndConvertParams params opSchema.parameters = .ok vp →
      validateAndConvertParams config opSchema.config = .error e →
      triggerOperator nodes schema operationName params config parallel targetNodes net
        = (.configValidationError e, [])) := by
  constructor
  · intro e he
    simp only [triggerOperator, hop, he]
  · intro vp e hok he
    simp only [triggerOperator, hop, hok, he]

/-- C5 witness: the aerospike add_namespace scenario with
high_water_disk_pct supplied and name omitted fails with the
missing-required error for name and an empty POST trace, before any
network call. -/
theorem c5_witness :
    triggerOperator ["n1"] aerospikeSchema "add_namespace"
        [("high_water_disk_pct", "40")] [] false []
        (fun _ _ => .ok ⟨true, .null, ""⟩)
      = (.paramValidationError (.missingRequired "name"), []) :=
  (c5_validation_failure_aborts_before_post ["n1"] aerospikeSchema "add_namespace"
    [("high_water_disk_pct", "40")] [] false [] (fun _ _ => .ok ⟨true, .null, ""⟩)
    ((aerospikeSchema.operations.lookup "add_namespace").getD
      ⟨"", [], []⟩) rfl).1 (.missingRequired "name") rfl

/-- Derived POST trace of the trigger flow: empty when the operation is
unknown or a validation pass fails, otherwise the single request to the
chosen node with the assembled payload; stated as a function so that its
independence from the network behaviour is a theorem. -/
def expectedPosts (nodes : List String) (schema : OperatorSchema)
    (operationName : String) (params config : List (String × String))
    (parallel : Bool) (targetNodes : List String) :
    List (String × OperatorPayload) :=
  match schema.operations.lookup operationName with
  | none => []
  | some opSchema =>
    match validateAndConvertParams params opSchema.parameters with
    | .error _ => []
    | .ok vp =>
      match validateAndConvertParams config opSchema.config with
      | .error _ => []
      | .ok vc => [(nodes.headD "", ⟨operationName, vc, vp, parallel, targetNodes⟩)]

/-- The POST trace of the trigger flow does not depend on the network
function: the flow never reacts to a request failure by posting again. -/
lemma triggerOperator_posts_eq (nodes : List String) (schema : OperatorSchema)
    (operationName : String) (params config : List (String × String))
    (parallel : Bool) (targetNodes : List String)
    (net : String → OperatorPayload → Except String APIResponse) :
    (triggerOperator nodes schema operationName params config parallel targetNodes net).2
      = expectedPosts nodes schema operationName params config parallel targetNodes := by
  cases hop : schema.operations.lookup operationName with
  | none => simp [triggerOperator, expectedPosts, hop]
  | some opSchema =>
    cases hvp : validateAndConvertParams params opSchema.parameters with
    | error e => simp [triggerOperator, expectedPosts, hop, hvp]
    | ok vp =>
      cases hvc : validateAndConvertParams config opSchema.config with
      | error e => simp [triggerOperator, expectedPosts, hop, hvp, hvc]
      | ok vc =>
        simp only [triggerOperator, expectedPosts, hop, hvp, hvc]
        cases hnet : net (nodes.headD "")
            ⟨operationName, vc, vp, parallel, targetNodes⟩ with
        | error e => simp [hnet]
        | ok resp =>
          by_cases hresp : resp.success = true <;> simp [hnet, hresp]

/-- C6 (confirmed): the trigger flow issues at most one POST, to the one
chosen node address (the first the iteration over the cluster nodes
yields), and its POST trace is the same whatever the network outcome:
there is no retry and no fallback to another node when the request
fails. -/
theorem c6_single_post_no_retry
    (nodes : List String) (schema : OperatorSchema) (operationName : String)
    (params config : List (String × String)) (parallel : Bool)
    (targetNodes : List String)
    (net net2 : String → OperatorPayload → Except String APIResponse) :
    ((triggerOperator nodes schema operationName params config parallel targetNodes net).2
      = (triggerOperator nodes schema operationName params config parallel targetNodes net2).2)
    ∧ (triggerOperator nodes schema operationName params config parallel targetNodes net).2.length ≤ 1
    ∧ ∀ p ∈ (triggerOperator nodes schema operationName params config parallel targetNodes net).2,
        p.1 = nodes.headD "" := by
  have h1 := triggerOperator_posts_eq nodes schema operationName params config
    parallel targetNodes net
  have h2 := triggerOperator_posts_eq nodes schema operationName params config
    parallel targetNodes net2
  refine ⟨h1.trans h2.symm, ?_, ?_⟩
  · rw [h1]
    cases hop : schema.operations.lookup operationName with
    | none => simp [expectedPosts, hop]
    | some opSchema =>
      cases hvp : validateAndConvertParams params opSchema.parameters with
      | error e => simp [expectedPosts, hop, hvp]
      | ok vp =>
        cases hvc : validateAndConvertParams config opSchema.config with
        | error e => simp [expectedPosts, hop, hvp, hvc]
        | ok vc => simp [expectedPosts, hop, hvp, hvc]
  · rw [h1]
    cases hop : schema.operations.lookup operationName with
    | none => simp [expectedPosts, hop]
    | some opSchema =>
      cases hvp : validateAndConvertParams params opSchema.parameters with
      | error e => simp [expectedPosts, hop, hvp]
      | ok vp =>
        cases hvc : validateAndConvertParams config opSchema.config with
        | error e => simp [expectedPosts, hop, hvp, hvc]
        | ok vc => simp [expectedPosts, hop, hvp, hvc]

/-- C8 (confirmed): when the requested operation is absent from the
operations mapping of the fetched schema, the trigger flow ends with the
unknown-operation outcome carrying the full list of valid operation
names, and the POST trace is empty. -/
theorem c8_unknown_operation_lists_alternatives
    (nodes : List String) (schema : OperatorSchema) (operationName : String)
    (params config : List (String × String)) (parallel : Bool)
    (targetNodes : List String)
    (net : String → OperatorPayload → Except String APIResponse)
    (hop : schema.operations.lookup operationName = none) :
    triggerOperator nodes schema operationName params config parallel targetNodes net
      = (.unknownOperation (schema.operations.map Prod.fst), []) := by
  simp only [triggerOperator, hop]

/-- C8 witness: asking the aerospike schema for the absent operation
drop_namespace yields the unknown-operation outcome listing
add_namespace, with no POST. -/
theorem c8_witness :
    triggerOperator ["n1"] aerospikeSchema "drop_namespace" [] [] false []
        (fun _ _ => .ok ⟨true, .null, ""⟩)
      = (.unknownOperation ["add_namespace"], []) :=
  c8_unknown_operation_lists_alternatives ["n1"] aerospikeSchema "drop_namespace"
    [] [] false [] (fun _ _ => .ok ⟨true, .null, ""⟩) rfl

/-- C7 (corrected): the bool converter accepts exactly the twelve
literals of the Go strconv.ParseBool switch — 1, t, T, true, TRUE, True
for true and 0, f, F, false, FALSE, False for false — not every casing
of the words true and false; converting "true" and "false" yields the
corresponding booleans and converting "yes" fails, as the claim states,
but the mixed casing "tRuE" also fails. -/
theorem c7_bool_literal_set :
    (∀ s b, convertValue s "bool" = .ok (.bool b) ↔
      ((b = true ∧ (s = "1" ∨ s = "t" ∨ s = "T" ∨ s = "true" ∨ s = "TRUE" ∨ s = "True"))
        ∨ (b = false ∧ (s = "0" ∨ s = "f" ∨ s = "F" ∨ s = "false" ∨ s = "FALSE" ∨ s = "False"))))
    ∧ convertValue "true" "bool" = .ok (.bool true)
    ∧ convertValue "false" "bool" = .ok (.bool false)
    ∧ convertValue "yes" "bool" = .error (.invalidInput "ParseBool" "yes")
    ∧ convertValue "tRuE" "bool" = .error (.invalidInput "ParseBool" "tRuE") := by
  refine ⟨?_, rfl, rfl, rfl, rfl⟩
  intro s b
  show (goParseBool s).map GoValue.bool = .ok (.bool b) ↔ _
  by_cases h1 : s = "1" ∨ s = "t" ∨ s = "T" ∨ s = "true" ∨ s = "TRUE" ∨ s = "True"
  · rw [goParseBool, if_pos h1]
    rcases h1 with rfl | rfl | rfl | rfl | rfl | rfl <;> cases b <;> simp [Except.map]
  · by_cases h2 : s = "0" ∨ s = "f" ∨ s = "F" ∨ s = "false" ∨ s = "FALSE" ∨ s = "False"
    · rw [goParseBool, if_neg h1, if_pos h2]
      rcases h2 with rfl | rfl | rfl | rfl | rfl | rfl <;> cases b <;> simp [Except.map]
    · rw [goParseBool, if_neg h1, if_neg h2]
      simp only [Except.map]
      constructor
      · intro h
        exact absurd h (by simp)
      · rintro (⟨-, hs⟩ | ⟨-, hs⟩)
        · exact absurd hs h1
        · exact absurd hs h2

/-- C7 counterexample: the claim says any casing of the accepted
literals converts; yet the mixed casing tRuE of true is rejected by the
converter, while the listed casing TRUE is accepted. -/
theorem c7_counterexample :
    convertValue "tRuE" "bool" = .error (.invalidInput "ParseBool" "tRuE")
    ∧ convertValue "TRUE" "bool" = .ok (.bool true) :=
  ⟨rfl, rfl⟩

end Gocluster
